import Mathlib

/-
Verification of the tenant-onboarding scripts:
  scripts/resolveLayers.py   (layer resolver)
  scripts/create_tenant.py   (tenant provisioner)
  scripts/cleanup_onboard.py (onboarding cleanup)

Each Python construct the claims depend on is embedded as an executable
Lean definition; theorems about those definitions settle the claims.
-/

namespace ResolveLayers

/-- A JSON value, as produced by `json.load`.  Objects keep their fields in
insertion order, matching Python dict semantics; keys of a parsed JSON
object are unique. -/
inductive Json where
  | null : Json
  | bool (b : Bool) : Json
  | str (s : String) : Json
  | num (n : Int) : Json
  | arr (elems : List Json) : Json
  | obj (fields : List (String × Json)) : Json

/-- One element of the `locals` sequence: a JSON object, i.e. an ordered
association list from top-level keys to JSON values. -/
abbrev Entry : Type := List (String × Json)

/-- Python `d[key]` / `d.get(key)` on a dict: first binding of `key`. -/
def lookupJ (fields : List (String × Json)) (key : String) : Option Json :=
  match fields with
  | [] => none
  | kv :: rest => if kv.1 == key then some kv.2 else lookupJ rest key

/-- Python truthiness of a JSON value (`if internalData.get('enabled'):`). -/
def truthy : Json → Bool
  | .null => false
  | .bool b => b
  | .str s => !(s == "")
  | .num n => !(n == 0)
  | .arr elems => !elems.isEmpty
  | .obj fields => !fields.isEmpty

/-- Python truthiness of `d.get(k)` (missing key gives `None`, falsy). -/
def truthyOpt : Option Json → Bool
  | none => false
  | some j => truthy j

/-- Python `dict.setdefault k v`: insert at the end only when `k` is absent.
The map value is `Option Json` because `internalData.get('path')` is `None`
when no `path` field exists. -/
def setdefault (m : List (String × Option Json)) (k : String) (v : Option Json) :
    List (String × Option Json) :=
  if m.any (fun kv => kv.1 == k) then m else m ++ [(k, v)]

/-- Accumulator of the locals loop: `enabledKeys` and `enabledMap`. -/
abbrev Acc : Type := List String × List (String × Option Json)

/-- Error raised by the locals loop (`KeyError` from `localData[0][key]`). -/
inductive PyError where
  | keyError (key : String) : PyError
deriving DecidableEq

/-- The inner loop of resolveLayers.py lines 34-39: iterate the keys of
`internalData`; when the iterated key is `'enabled'` and
`internalData.get('enabled')` is truthy, append `key` to `enabledKeys` and
`setdefault` the map with `internalData.get('path')`. -/
def processInner (fields : List (String × Json)) (key : String) (acc : Acc) : Acc :=
  fields.foldl
    (fun acc kv =>
      if kv.1 == "enabled" && truthyOpt (lookupJ fields "enabled") then
        (acc.1 ++ [key], setdefault acc.2 key (lookupJ fields "path"))
      else acc)
    acc

/-- Handling of one top-level key (resolveLayers.py lines 31-39): the value
examined is `localData[0][key]` — always the FIRST element of `locals`,
raising `KeyError` when that element lacks the key; only values that are
dicts (`type(internalData) is dict`) are inspected further. -/
def processKey (first : Entry) (key : String) (acc : Acc) : Except PyError Acc :=
  match lookupJ first key with
  | none => .error (.keyError key)
  | some (.obj fields) => .ok (processInner fields key acc)
  | some _ => .ok acc

/-- Iterate the top-level keys of one `locals` entry. -/
def processEntry (first : Entry) (entry : Entry) (acc : Acc) : Except PyError Acc :=
  match entry with
  | [] => .ok acc
  | kv :: rest =>
    match processKey first kv.1 acc with
    | .error e => .error e
    | .ok acc' => processEntry first rest acc'

/-- Iterate every entry of the `locals` sequence. -/
def resolveLoop (first : Entry) (entries : List Entry) (acc : Acc) : Except PyError Acc :=
  match entries with
  | [] => .ok acc
  | e :: rest =>
    match processEntry first e acc with
    | .error err => .error err
    | .ok acc' => resolveLoop first rest acc'

/-- The whole locals loop of resolveLayers.py lines 30-39, producing
`(enabledKeys, enabledMap)` or the first uncaught `KeyError`. -/
def resolveEnabled (localData : List Entry) : Except PyError Acc :=
  match localData with
  | [] => .ok ([], [])
  | first :: _ => resolveLoop first localData ([], [])

/-- `getEnabledKeysFromStack` (resolveLayers.py lines 7-12): walk the stack
in order, appending each stack key that is a member of `enabledKeyList`. -/
def getEnabledKeysFromStack (stack : List String) (enabledKeyList : List String) :
    List String :=
  stack.foldl (fun acc stackKey =>
    if enabledKeyList.contains stackKey then acc ++ [stackKey] else acc) []

/-- The seven category stacks, parsed from the environment. -/
structure Stacks where
  metadata_stack : List String
  datadog_stack : List String
  baseline_stack : List String
  networking_stack : List String
  tableau_stack : List String
  abc_stack : List String
  datalake_stack : List String
deriving DecidableEq

/-- Python `repr` of a string (quoting simplified to plain single quotes,
which is exact for strings without quotes or escapes). -/
def pyReprStr (s : String) : String := "\x27" ++ s ++ "\x27"

mutual

/-- Python `repr` of a JSON-derived value, as `print` renders dict/list
members. -/
def pyReprJson : Json → String
  | .null => "None"
  | .bool b => if b then "True" else "False"
  | .str s => pyReprStr s
  | .num n => toString n
  | .arr elems => "[" ++ pyReprArr elems ++ "]"
  | .obj fields => "\x7b" ++ pyReprFields fields ++ "\x7d"

/-- Comma-separated reprs of list elements. -/
def pyReprArr : List Json → String
  | [] => ""
  | [x] => pyReprJson x
  | x :: y :: rest => pyReprJson x ++ ", " ++ pyReprArr (y :: rest)

/-- Comma-separated reprs of dict items. -/
def pyReprFields : List (String × Json) → String
  | [] => ""
  | [kv] => pyReprStr kv.1 ++ ": " ++ pyReprJson kv.2
  | kv :: kv2 :: rest =>
    pyReprStr kv.1 ++ ": " ++ pyReprJson kv.2 ++ ", " ++ pyReprFields (kv2 :: rest)

end

/-- Python `repr` of an `Option Json` (`None` for a missing `path`). -/
def pyReprOptJson : Option Json → String
  | none => "None"
  | some j => pyReprJson j

/-- Python `repr` of a list of strings. -/
def pyReprStrList (xs : List String) : String :=
  "[" ++ String.intercalate ", " (xs.map pyReprStr) ++ "]"

/-- Python `repr` of the `enabledMap` dict. -/
def pyReprPathMap (m : List (String × Option Json)) : String :=
  "\x7b" ++
    String.intercalate ", "
      (m.map (fun kv => pyReprStr kv.1 ++ ": " ++ pyReprOptJson kv.2)) ++
  "\x7d"

/-- The module body of resolveLayers.py as a pure function from the parsed
`locals` sequence and the seven stacks to the standard-output lines (each
`print("label=", v)` emits `label= ` followed by the repr of `v`).  A
`KeyError` in the locals loop aborts the script before any line is
printed, which the `.error` result models. -/
def resolveLayersRun (localData : List Entry) (sts : Stacks) :
    Except PyError (List String) := do
  let acc ← resolveEnabled localData
  let enabledKeys := acc.1
  let enabledMap := acc.2
  pure
    [ "filepath_map= " ++ pyReprPathMap enabledMap,
      "metadata_layers= " ++
        pyReprStrList (getEnabledKeysFromStack sts.metadata_stack enabledKeys),
      "datadog_layers= " ++
        pyReprStrList (getEnabledKeysFromStack sts.datadog_stack enabledKeys),
      "baseline_layers= " ++
        pyReprStrList (getEnabledKeysFromStack sts.baseline_stack enabledKeys),
      "networking_layers= " ++
        pyReprStrList (getEnabledKeysFromStack sts.networking_stack enabledKeys),
      "tableau_layers= " ++
        pyReprStrList (getEnabledKeysFromStack sts.tableau_stack enabledKeys),
      "abc_layers= " ++
        pyReprStrList (getEnabledKeysFromStack sts.abc_stack enabledKeys),
      "datalake_layers= " ++
        pyReprStrList (getEnabledKeysFromStack sts.datalake_stack enabledKeys) ]

lemma getEnabledKeysFromStack_aux (stack enabledKeyList : List String)
    (acc : List String) :
    stack.foldl (fun acc stackKey =>
        if enabledKeyList.contains stackKey then acc ++ [stackKey] else acc) acc
      = acc ++ stack.filter (fun k => enabledKeyList.contains k) := by
  induction stack generalizing acc with
  | nil => simp
  | cons k rest ih =>
    simp only [List.foldl_cons, List.filter_cons]
    by_cases h : enabledKeyList.contains k = true
    · rw [if_pos h, if_pos h, ih, List.append_assoc, List.singleton_append]
    · rw [if_neg h, if_neg h, ih]

lemma processEntry_keys (first : Entry) :
    ∀ (e e' : Entry), e.map Prod.fst = e'.map Prod.fst →
      ∀ acc, processEntry first e acc = processEntry first e' acc := by
  intro e
  induction e with
  | nil =>
    intro e' h acc
    have : e' = [] := by
      cases e' with
      | nil => rfl
      | cons kv rest => simp at h
    rw [this]
  | cons kv rest ih =>
    intro e' h acc
    cases e' with
    | nil => simp at h
    | cons kv' rest' =>
      simp only [List.map_cons, List.cons.injEq] at h
      show (match processKey first kv.1 acc with
            | Except.error err => Except.error err
            | Except.ok acc' => processEntry first rest acc')
          = (match processKey first kv'.1 acc with
            | Except.error err => Except.error err
            | Except.ok acc' => processEntry first rest' acc')
      rw [h.1]
      cases processKey first kv'.1 acc with
      | error err => rfl
      | ok acc' => exact ih rest' h.2 acc'

lemma resolveLoop_keys (first : Entry) :
    ∀ (entries entries' : List Entry),
      entries.map (fun e => e.map Prod.fst)
        = entries'.map (fun e => e.map Prod.fst) →
      ∀ acc, resolveLoop first entries acc = resolveLoop first entries' acc := by
  intro entries
  induction entries with
  | nil =>
    intro entries' h acc
    have : entries' = [] := by
      cases entries' with
      | nil => rfl
      | cons e rest => simp at h
    rw [this]
  | cons e rest ih =>
    intro entries' h acc
    cases entries' with
    | nil => simp at h
    | cons e' rest' =>
      simp only [List.map_cons, List.cons.injEq] at h
      show (match processEntry first e acc with
            | Except.error err => Except.error err
            | Except.ok acc' => resolveLoop first rest acc')
          = (match processEntry first e' acc with
            | Except.error err => Except.error err
            | Except.ok acc' => resolveLoop first rest' acc')
      rw [processEntry_keys first e e' h.1 acc]
      cases processEntry first e' acc with
      | error err => rfl
      | ok acc' => exact ih rest' h.2 acc'

lemma processKey_isOk (first : Entry) (key : String) (acc : Acc)
    (h : lookupJ first key ≠ none) :
    ∃ acc', processKey first key acc = .ok acc' := by
  unfold processKey
  cases hl : lookupJ first key with
  | none => exact absurd hl h
  | some j => cases j <;> exact ⟨_, rfl⟩

lemma processEntry_isOk (first : Entry) :
    ∀ (e : Entry) (acc : Acc),
      (∀ kv ∈ e, lookupJ first kv.1 ≠ none) →
      ∃ acc', processEntry first e acc = .ok acc' := by
  intro e
  induction e with
  | nil => exact fun acc _ => ⟨acc, rfl⟩
  | cons kv rest ih =>
    intro acc h
    obtain ⟨acc', hk⟩ :=
      processKey_isOk first kv.1 acc (h kv (List.mem_cons_self kv rest))
    obtain ⟨acc'', hrest⟩ :=
      ih acc' (fun kv' hkv' => h kv' (List.mem_cons_of_mem kv hkv'))
    refine ⟨acc'', ?_⟩
    show (match processKey first kv.1 acc with
          | Except.error err => Except.error err
          | Except.ok acc' => processEntry first rest acc') = Except.ok acc''
    rw [hk]
    exact hrest

lemma processEntry_isError (first : Entry) :
    ∀ (e : Entry) (acc : Acc),
      (∃ kv ∈ e, lookupJ first kv.1 = none) →
      ∃ err, processEntry first e acc = .error err := by
  intro e
  induction e with
  | nil => intro acc h; simp at h
  | cons kv rest ih =>
    intro acc h
    show ∃ err, (match processKey first kv.1 acc with
          | Except.error err => Except.error err
          | Except.ok acc' => processEntry first rest acc') = Except.error err
    by_cases hk : lookupJ first kv.1 = none
    · refine ⟨.keyError kv.1, ?_⟩
      have : processKey first kv.1 acc = .error (.keyError kv.1) := by
        unfold processKey
        rw [hk]
      rw [this]
    · obtain ⟨acc', hok⟩ := processKey_isOk first kv.1 acc hk
      rw [hok]
      apply ih
      obtain ⟨kv', hmem, hnone⟩ := h
      rcases List.mem_cons.mp hmem with heq | hmem'
      · exact absurd (heq ▸ hnone) hk
      · exact ⟨kv', hmem', hnone⟩

lemma resolveLoop_isError (first : Entry) :
    ∀ (entries : List Entry) (acc : Acc),
      (∃ e ∈ entries, ∃ kv ∈ e, lookupJ first kv.1 = none) →
      ∃ err, resolveLoop first entries acc = .error err := by
  intro entries
  induction entries with
  | nil => intro acc h; simp at h
  | cons e rest ih =>
    intro acc h
    show ∃ err, (match processEntry first e acc with
          | Except.error err => Except.error err
          | Except.ok acc' => resolveLoop first rest acc') = Except.error err
    by_cases he : ∃ kv ∈ e, lookupJ first kv.1 = none
    · obtain ⟨err, herr⟩ := processEntry_isError first e acc he
      exact ⟨err, by rw [herr]⟩
    · push_neg at he
      obtain ⟨acc', hok⟩ :=
        processEntry_isOk first e acc (fun kv hkv => he kv hkv)
      rw [hok]
      apply ih
      obtain ⟨e', hmem, kv, hkv, hnone⟩ := h
      rcases List.mem_cons.mp hmem with heq | hmem'
      · subst heq
        exact absurd hnone (he kv hkv)
      · exact ⟨e', hmem', kv, hkv, hnone⟩

end ResolveLayers

namespace CreateTenant

/-- Python truthiness of `os.getenv(...)`: `None` and the empty string are
falsy, any non-empty string is truthy (this is what
`if not all([...])` tests in `TenantCreator.__init__`). -/
def truthyEnv : Option String → Bool
  | none => false
  | some s => !(s == "")

/-- Python `str.lower()` (exact for the ASCII strings involved). -/
def strLower (s : String) : String := String.mk (s.data.map Char.toLower)

/-- The fields `TenantCreator.__init__` stores after validation.
`github_repository` is the value subsequently passed to
`self.gh.get_repo(...)` when the repository client is constructed. -/
structure InitState where
  tenant_name : Option String
  project_name : Option String
  dev_network_range : Option String
  stage_network_range : Option String
  enable_departure : Bool
  enable_avscan : Bool
  github_token : Option String
  github_repository : Option String
deriving DecidableEq

/-- Result of running `TenantCreator.__init__` (create_tenant.py lines
25-57): either `sys.exit(1)` from the validation block, or the
constructed state.  Up to the validation check the constructor only reads
environment variables — it performs no repository mutation — so an
`exited` result happens before any side effect. -/
inductive InitResult where
  | exited (code : Nat) : InitResult
  | ok (st : InitState) : InitResult
deriving DecidableEq

/-- `TenantCreator.__init__` (create_tenant.py lines 25-57) as a function
of the process environment.  The validation `if not all([tenant_name,
project_name, dev_network_range, stage_network_range, github_token])`
exits with code 1; note that `github_repository` is read but NOT part of
the validated list. -/
def tenantCreatorInit (env : String → Option String) : InitResult :=
  let tenant_name := env "TENANT_NAME"
  let project_name := env "PROJECT_NAME"
  let dev_network_range := env "DEV_NETWORK_RANGE"
  let stage_network_range := env "STAGE_NETWORK_RANGE"
  let enable_departure := strLower ((env "ENABLE_DEPARTURE").getD "false") == "true"
  let enable_avscan := strLower ((env "ENABLE_AVSCAN").getD "false") == "true"
  let github_token := env "GITHUB_TOKEN"
  let github_repository := env "GITHUB_REPOSITORY"
  if !(truthyEnv tenant_name && truthyEnv project_name
      && truthyEnv dev_network_range && truthyEnv stage_network_range
      && truthyEnv github_token) then
    .exited 1
  else
    .ok ⟨tenant_name, project_name, dev_network_range, stage_network_range,
         enable_departure, enable_avscan, github_token, github_repository⟩

/-- Tri-state value of `self.workflows_copied`: Python `True`,
`"fallback"`, or `False`. -/
inductive WorkflowsCopied where
  | copiedAll : WorkflowsCopied
  | fallback : WorkflowsCopied
  | skippedAll : WorkflowsCopied
deriving DecidableEq

/-- Where workflow files were written. -/
inductive WriteTarget where
  | sharedWorkflowsDir : WriteTarget
  | tenantWorkflowsSubdir : WriteTarget
deriving DecidableEq

/-- One attempt to write the rendered workflow templates to a target
directory; `ok = false` models the write raising (e.g.
`PermissionError`). -/
def writeWorkflowTemplates (ok : Bool) (target : WriteTarget) :
    Except String WriteTarget :=
  if ok then .ok target else .error "PermissionError"

/-- External conditions the workflow-copy section of `copy_template`
depends on: the `SKIP_WORKFLOWS` flag, existence of
`template-repo/workflows`, and whether each of the two write attempts
raises. -/
structure CopyEnv where
  skip_workflows : Bool
  template_workflows_exists : Bool
  primary_write_ok : Bool
  fallback_write_ok : Bool
deriving DecidableEq

/-- The workflow-copy section of `TenantCreator.copy_template`
(create_tenant.py lines 93-135): try `.github/workflows/` first; on an
exception retry under `tenant/<name>/workflows/` recording `"fallback"`;
if that raises too record `False`.  Every exception is caught, so the
method always returns (the result is always `.ok`): neither fallback path
is fatal to the run. -/
def copyTemplateWorkflows (e : CopyEnv) :
    Except String (WorkflowsCopied × Option WriteTarget) :=
  if e.skip_workflows then .ok (.skippedAll, none)
  else if e.template_workflows_exists then
    match writeWorkflowTemplates e.primary_write_ok .sharedWorkflowsDir with
    | .ok t => .ok (.copiedAll, some t)
    | .error _ =>
      match writeWorkflowTemplates e.fallback_write_ok .tenantWorkflowsSubdir with
      | .ok t => .ok (.fallback, some t)
      | .error _ => .ok (.skippedAll, none)
  else .ok (.skippedAll, none)

/-- `TenantCreator._get_workflow_status_message` (lines 218-225), embedded
verbatim into the commit message built by `commit_and_push` (line 296). -/
def getWorkflowStatusMessage : WorkflowsCopied → String
  | .copiedAll => "Copied workflows from template-repo/workflows/"
  | .fallback => "Created workflows in tenant/workflows/ (manual copy required)"
  | .skippedAll => "Workflows skipped (insufficient permissions)"

/-- `TenantCreator._get_workflow_pr_message` (lines 227-239), embedded
verbatim into the pull-request body built by `create_pull_request`
(line 365); character-list form of the three f-strings. -/
def getWorkflowPrMessage (tenant_name : String) : WorkflowsCopied → List Char
  | .copiedAll =>
    "- ✅ Generated workflow from template: `tenant_".data ++
      (tenant_name.data ++
        (".yml`\n- ✅ Generated deployment workflow from template: `tenant_".data ++
          (tenant_name.data ++ "_deploy.yml`".data)))
  | .fallback =>
    "- ⚠️ Workflows created in `tenant/".data ++
      (tenant_name.data ++
        ("/workflows/` (requires manual copy to `.github/workflows/`)\n  - `tenant_".data ++
          (tenant_name.data ++
            (".yml` → copy to `.github/workflows/`\n  - `tenant_".data ++
              (tenant_name.data ++
                "_deploy.yml` → copy to `.github/workflows/`".data)))))
  | .skippedAll =>
    "- ❌ Workflow generation skipped due to insufficient permissions\n  - Manual creation required: `tenant_".data ++
      (tenant_name.data ++
        (".yml`\n  - Manual creation required: `tenant_".data ++
          (tenant_name.data ++ "_deploy.yml`".data)))

lemma prMessage_fallback_ne_copied (tenant_name : String) :
    getWorkflowPrMessage tenant_name .fallback
      ≠ getWorkflowPrMessage tenant_name .copiedAll := by
  intro h
  have h3 := congrArg (fun l => l.take 3) h
  simp only [getWorkflowPrMessage] at h3
  rw [List.take_append_of_le_length (by decide),
      List.take_append_of_le_length (by decide)] at h3
  exact absurd h3 (by decide)

lemma length_le_of_isPrefixOf :
    ∀ (p s : List Char), p.isPrefixOf s = true → p.length ≤ s.length
  | [], _, _ => Nat.zero_le _
  | a :: as, [], h => by simp [List.isPrefixOf] at h
  | a :: as, b :: bs, h => by
    simp only [List.isPrefixOf, Bool.and_eq_true] at h
    simpa [List.length_cons] using
      Nat.succ_le_succ (length_le_of_isPrefixOf as bs h.2)

/-- Python `str.replace(old, new)` on character lists, written with
explicit fuel so that it is structural (and hence kernel-computable); the
fuel is always instantiated with the string length, which suffices
because every step consumes at least one character.  The scan runs left
to right, replacing each non-overlapping occurrence and continuing after
it; the `old` strings this repository passes are the non-empty
placeholder tokens (Python's special-case empty pattern never occurs). -/
def pyReplaceFuel : Nat → List Char → List Char → List Char → List Char
  | 0, _, _, _ => []
  | _ + 1, [], _, _ => []
  | f + 1, c :: s', pat, rep =>
    if pat ≠ [] ∧ pat.isPrefixOf (c :: s') = true then
      rep ++ pyReplaceFuel f (List.drop (pat.length - 1) s') pat rep
    else
      c :: pyReplaceFuel f s' pat rep

/-- Python `content.replace(pat, rep)`. -/
def pyReplace (s pat rep : List Char) : List Char :=
  pyReplaceFuel s.length s pat rep

lemma pyReplaceFuel_irrel :
    ∀ (f g : Nat) (s pat rep : List Char), s.length ≤ f → s.length ≤ g →
      pyReplaceFuel f s pat rep = pyReplaceFuel g s pat rep := by
  intro f
  induction f with
  | zero =>
    intro g s pat rep h1 _
    have hs : s = [] := List.eq_nil_of_length_eq_zero (Nat.le_zero.mp h1)
    subst hs
    cases g <;> rfl
  | succ f ih =>
    intro g s pat rep h1 h2
    cases s with
    | nil => cases g <;> rfl
    | cons c s' =>
      have hg : 0 < g := by
        have : 0 < (c :: s').length := by simp
        omega
      obtain ⟨g', rfl⟩ : ∃ g', g = g' + 1 := ⟨g - 1, by omega⟩
      show (if pat ≠ [] ∧ pat.isPrefixOf (c :: s') = true then
              rep ++ pyReplaceFuel f (List.drop (pat.length - 1) s') pat rep
            else c :: pyReplaceFuel f s' pat rep)
          = (if pat ≠ [] ∧ pat.isPrefixOf (c :: s') = true then
              rep ++ pyReplaceFuel g' (List.drop (pat.length - 1) s') pat rep
            else c :: pyReplaceFuel g' s' pat rep)
      have hlen : (c :: s').length = s'.length + 1 := by simp
      by_cases h : pat ≠ [] ∧ pat.isPrefixOf (c :: s') = true
      · rw [if_pos h, if_pos h]
        congr 1
        exact ih g' _ pat rep
          (by rw [List.length_drop]; omega)
          (by rw [List.length_drop]; omega)
      · rw [if_neg h, if_neg h]
        congr 1
        exact ih g' s' pat rep (by omega) (by omega)

lemma pyReplace_cons (c : Char) (s' pat rep : List Char) :
    pyReplace (c :: s') pat rep =
      if pat ≠ [] ∧ pat.isPrefixOf (c :: s') = true then
        rep ++ pyReplace (List.drop (pat.length - 1) s') pat rep
      else
        c :: pyReplace s' pat rep := by
  show pyReplaceFuel ((c :: s').length) (c :: s') pat rep = _
  have hlen : (c :: s').length = s'.length + 1 := by simp
  rw [hlen]
  show (if pat ≠ [] ∧ pat.isPrefixOf (c :: s') = true then
          rep ++ pyReplaceFuel s'.length (List.drop (pat.length - 1) s') pat rep
        else c :: pyReplaceFuel s'.length s' pat rep) = _
  by_cases h : pat ≠ [] ∧ pat.isPrefixOf (c :: s') = true
  · rw [if_pos h, if_pos h]
    congr 1
    exact pyReplaceFuel_irrel s'.length _ _ pat rep
      (by rw [List.length_drop]; omega) (le_refl _)
  · rw [if_neg h, if_neg h]
    rfl

lemma isPrefixOf_self_append : ∀ (p b : List Char), p.isPrefixOf (p ++ b) = true
  | [], _ => by simp [List.isPrefixOf]
  | x :: xs, b => by
    simp only [List.cons_append, List.isPrefixOf, Bool.and_eq_true]
    exact ⟨beq_self_eq_true x, isPrefixOf_self_append xs b⟩

lemma isPrefixOf_append_or (pat : List Char) :
    ∀ (a b : List Char), pat.isPrefixOf (a ++ b) = true →
      pat.isPrefixOf a = true ∨ a.isPrefixOf pat = true := by
  induction pat with
  | nil => intro a b _; left; cases a <;> rfl
  | cons x xs ih =>
    intro a b h
    cases a with
    | nil => right; rfl
    | cons y ys =>
      rw [List.cons_append] at h
      simp only [List.isPrefixOf, Bool.and_eq_true] at h ⊢
      obtain ⟨hxy, hrest⟩ := h
      have hxy' : x = y := eq_of_beq hxy
      rcases ih ys b hrest with h1 | h1
      · exact Or.inl ⟨hxy, h1⟩
      · subst hxy'
        exact Or.inr ⟨beq_self_eq_true x, h1⟩

lemma pyReplace_hit (s pat rep : List Char) (h1 : pat ≠ [])
    (h2 : pat.isPrefixOf s = true) :
    pyReplace s pat rep = rep ++ pyReplace (s.drop pat.length) pat rep := by
  cases pat with
  | nil => exact absurd rfl h1
  | cons a as =>
    cases s with
    | nil => simp [List.isPrefixOf] at h2
    | cons c s' =>
      rw [pyReplace_cons, if_pos ⟨h1, h2⟩]
      have hd : List.drop ((a :: as).length - 1) s'
          = (c :: s').drop (a :: as).length := by
        simp [List.length_cons, List.drop_succ_cons]
      rw [hd]

lemma pyReplace_append_match (pat rep b : List Char) (h : pat ≠ []) :
    pyReplace (pat ++ b) pat rep = rep ++ pyReplace b pat rep := by
  rw [pyReplace_hit (pat ++ b) pat rep h (isPrefixOf_self_append pat b)]
  rw [List.drop_left]

/-- Check that no occurrence of `pat` begins inside `a`, even an
occurrence that would continue past the end of `a` into whatever text
follows: at every start position, `pat` neither fits inside the remaining
suffix of `a` nor is long enough that the suffix is one of its own
prefixes. -/
def noOverlapB (a pat : List Char) : Bool :=
  (List.range a.length).all fun k =>
    !(pat.isPrefixOf (a.drop k)) && !((a.drop k).isPrefixOf pat)

lemma noOverlapB_head (a pat : List Char) (ha : a ≠ [])
    (h : noOverlapB a pat = true) :
    pat.isPrefixOf a = false ∧ a.isPrefixOf pat = false := by
  rw [noOverlapB, List.all_eq_true] at h
  have h0 := h 0 (List.mem_range.mpr (List.length_pos.mpr ha))
  simp only [List.drop_zero, Bool.and_eq_true, Bool.not_eq_true'] at h0
  exact h0

lemma noOverlapB_tail (c : Char) (a pat : List Char)
    (h : noOverlapB (c :: a) pat = true) : noOverlapB a pat = true := by
  rw [noOverlapB, List.all_eq_true] at h ⊢
  intro k hk
  have hk' := List.mem_range.mp hk
  have := h (k + 1)
    (List.mem_range.mpr (by simpa [List.length_cons] using Nat.succ_lt_succ hk'))
  simpa [List.drop_succ_cons] using this

lemma pyReplace_append_of_noOverlap (pat rep : List Char) :
    ∀ (a b : List Char), noOverlapB a pat = true →
      pyReplace (a ++ b) pat rep = a ++ pyReplace b pat rep := by
  intro a
  induction a with
  | nil => intro b _; rfl
  | cons c a' ih =>
    intro b h
    have h0 := noOverlapB_head (c :: a') pat (by simp) h
    rw [List.cons_append, pyReplace_cons]
    have hcond : ¬(pat ≠ [] ∧ pat.isPrefixOf (c :: (a' ++ b)) = true) := by
      rintro ⟨hne, hpre⟩
      rw [← List.cons_append] at hpre
      rcases isPrefixOf_append_or pat (c :: a') b hpre with h1 | h1
      · rw [h0.1] at h1; exact Bool.false_ne_true h1
      · rw [h0.2] at h1; exact Bool.false_ne_true h1
    rw [if_neg hcond, ih b (noOverlapB_tail c a' pat h)]
    rfl

/-- A fragment of the content as seen by one replacement pass: either an
occurrence of the pattern being replaced, or a segment in which no
occurrence of that pattern starts. -/
inductive Piece where
  | seg (a : List Char) : Piece
  | occ : Piece

/-- Fragment text before the pass. -/
def renderPiece (pat : List Char) : Piece → List Char
  | .seg a => a
  | .occ => pat

/-- Fragment text after the pass. -/
def outPiece (rep : List Char) : Piece → List Char
  | .seg a => a
  | .occ => rep

/-- Concatenation of fragments. -/
def joinL (xs : List (List Char)) : List Char :=
  xs.foldr (fun a b => a ++ b) []

lemma pyReplace_pieces (pat rep : List Char) (hpat : pat ≠ []) :
    ∀ ps : List Piece,
      (∀ a, Piece.seg a ∈ ps → noOverlapB a pat = true) →
      pyReplace (joinL (ps.map (renderPiece pat))) pat rep
        = joinL (ps.map (outPiece rep)) := by
  intro ps
  induction ps with
  | nil => intro _; rfl
  | cons pc rest ih =>
    intro h
    cases pc with
    | seg a =>
      show pyReplace (a ++ joinL (rest.map (renderPiece pat))) pat rep
          = a ++ joinL (rest.map (outPiece rep))
      rw [pyReplace_append_of_noOverlap pat rep a _
        (h a (List.mem_cons_self _ _))]
      rw [ih (fun a' ha' => h a' (List.mem_cons_of_mem _ ha'))]
    | occ =>
      show pyReplace (pat ++ joinL (rest.map (renderPiece pat))) pat rep
          = rep ++ joinL (rest.map (outPiece rep))
      rw [pyReplace_append_match pat rep _ hpat]
      rw [ih (fun a' ha' => h a' (List.mem_cons_of_mem _ ha'))]

/-- A fragment of a template file's contents relative to the whole list of
placeholder pairs: either inert text, or the `n`-th recognized token. -/
inductive Chunk where
  | lit (s : List Char) : Chunk
  | tok (n : Nat) : Chunk

/-- Fragment text before any replacement pass: tokens are spelled out. -/
def renderChunk (prs : List (List Char × List Char)) : Chunk → List Char
  | .lit s => s
  | .tok n => ((prs[n]?).map Prod.fst).getD []

/-- Fragment text after all passes: tokens are replaced by their values. -/
def outChunk (prs : List (List Char × List Char)) : Chunk → List Char
  | .lit s => s
  | .tok n => ((prs[n]?).map Prod.snd).getD []

/-- Effect of one pass on a fragment: the first token becomes its
replacement text (now inert), later token indices shift down. -/
def stepChunk (rep : List Char) : Chunk → Chunk
  | .lit s => .lit s
  | .tok 0 => .lit rep
  | .tok (n + 1) => .tok n

/-- The placeholder loop of `_replace_placeholders`: one `str.replace`
pass per `(placeholder, value)` pair, in dict order. -/
def applyAll (prs : List (List Char × List Char)) (s : List Char) : List Char :=
  prs.foldl (fun c pr => pyReplace c pr.1 pr.2) s

lemma pairwise_of_mem {α : Type} {R : α → α → Prop} :
    ∀ {l : List α}, (∀ x ∈ l, ∀ y ∈ l, R x y) → l.Pairwise R := by
  intro l
  induction l with
  | nil => intro _; exact List.Pairwise.nil
  | cons x xs ih =>
    intro h
    refine List.Pairwise.cons ?_ ?_
    · intro y hy
      exact h x (List.mem_cons_self _ _) y (List.mem_cons_of_mem _ hy)
    · exact ih (fun a ha b hb =>
        h a (List.mem_cons_of_mem _ ha) b (List.mem_cons_of_mem _ hb))

lemma noOverlapB_nil (pat : List Char) : noOverlapB [] pat = true := rfl

/-- View of a fragment during the pass that replaces the first pattern of
the list `rest`-extended pair list: the first token is the occurrence
being replaced, all other fragments are inert segments. -/
def pieceOf (rest : List (List Char × List Char)) : Chunk → Piece
  | .lit s => .seg s
  | .tok 0 => .occ
  | .tok (n + 1) => .seg (renderChunk rest (.tok n))

lemma applyAll_chunks :
    ∀ (prs : List (List Char × List Char)) (cs : List Chunk),
      (∀ pr ∈ prs, pr.1 ≠ []) →
      List.Pairwise (fun x y => noOverlapB y.1 x.1 = true) prs →
      List.Pairwise (fun x y => noOverlapB x.2 y.1 = true) prs →
      (∀ s, Chunk.lit s ∈ cs → ∀ pr ∈ prs, noOverlapB s pr.1 = true) →
      applyAll prs (joinL (cs.map (renderChunk prs)))
        = joinL (cs.map (outChunk prs)) := by
  intro prs
  induction prs with
  | nil =>
    intro cs _ _ _ _
    show joinL (cs.map (renderChunk [])) = joinL (cs.map (outChunk []))
    have hmaps : cs.map (renderChunk []) = cs.map (outChunk []) := by
      apply List.map_congr_left
      intro c _
      cases c with
      | lit s => rfl
      | tok n => simp [renderChunk, outChunk]
    rw [hmaps]
  | cons pr rest ih =>
    intro cs hne hpp hrp hlit
    obtain ⟨pat, rep⟩ := pr
    have hpat : pat ≠ [] := hne (pat, rep) (List.mem_cons_self _ _)
    have hppc := List.pairwise_cons.mp hpp
    have hrpc := List.pairwise_cons.mp hrp
    show applyAll rest
        (pyReplace (joinL (cs.map (renderChunk ((pat, rep) :: rest)))) pat rep)
      = joinL (cs.map (outChunk ((pat, rep) :: rest)))
    have hren : cs.map (renderChunk ((pat, rep) :: rest))
        = (cs.map (pieceOf rest)).map (renderPiece pat) := by
      rw [List.map_map]
      apply List.map_congr_left
      intro c _
      cases c with
      | lit s => rfl
      | tok n => cases n with
        | zero => simp [renderChunk, renderPiece, pieceOf]
        | succ n => simp [renderChunk, renderPiece, pieceOf]
    have hout : (cs.map (pieceOf rest)).map (outPiece rep)
        = (cs.map (stepChunk rep)).map (renderChunk rest) := by
      rw [List.map_map, List.map_map]
      apply List.map_congr_left
      intro c _
      cases c with
      | lit s => rfl
      | tok n => cases n with
        | zero => simp [outPiece, pieceOf, stepChunk, renderChunk]
        | succ n => simp [outPiece, pieceOf, stepChunk, renderChunk]
    have hpass :
        pyReplace (joinL (cs.map (renderChunk ((pat, rep) :: rest)))) pat rep
          = joinL ((cs.map (stepChunk rep)).map (renderChunk rest)) := by
      rw [hren, ← hout]
      apply pyReplace_pieces pat rep hpat
      intro a ha
      rw [List.mem_map] at ha
      obtain ⟨c, hc, hca⟩ := ha
      cases c with
      | lit s =>
        have ha' : a = s := by simpa [pieceOf] using hca.symm
        rw [ha']
        exact hlit s hc (pat, rep) (List.mem_cons_self _ _)
      | tok n =>
        cases n with
        | zero => simp [pieceOf] at hca
        | succ n =>
          have ha' : a = renderChunk rest (Chunk.tok n) := by
            simpa [pieceOf] using hca.symm
          rw [ha']
          cases hg : rest[n]? with
          | none => simp [renderChunk, hg, noOverlapB_nil]
          | some pr' =>
            have hmem := List.getElem?_mem hg
            have := hppc.1 pr' hmem
            simpa [renderChunk, hg] using this
    rw [hpass]
    have hlit' : ∀ s, Chunk.lit s ∈ cs.map (stepChunk rep) →
        ∀ pr' ∈ rest, noOverlapB s pr'.1 = true := by
      intro s hs pr' hpr'
      rw [List.mem_map] at hs
      obtain ⟨c, hc, hcs⟩ := hs
      cases c with
      | lit s' =>
        have hs' : s = s' := by simpa [stepChunk] using hcs.symm
        rw [hs']
        exact hlit s' hc pr' (List.mem_cons_of_mem _ hpr')
      | tok n =>
        cases n with
        | zero =>
          have hs' : s = rep := by simpa [stepChunk] using hcs.symm
          rw [hs']
          exact hrpc.1 pr' hpr'
        | succ n => simp [stepChunk] at hcs
    rw [ih (cs.map (stepChunk rep))
      (fun pr' h' => hne pr' (List.mem_cons_of_mem _ h'))
      hppc.2 hrpc.2 hlit']
    have hfin : (cs.map (stepChunk rep)).map (outChunk rest)
        = cs.map (outChunk ((pat, rep) :: rest)) := by
      rw [List.map_map]
      apply List.map_congr_left
      intro c _
      cases c with
      | lit s => rfl
      | tok n => cases n with
        | zero => simp [outChunk, stepChunk]
        | succ n => simp [outChunk, stepChunk]
    rw [hfin]

/-- No occurrence of a pattern that begins with a left brace can start
inside text that contains no left brace. -/
lemma noOverlapB_of_no_brace (v pat : List Char)
    (hv : ∀ c ∈ v, c ≠ '\x7b') (hpat : pat.head? = some '\x7b') :
    noOverlapB v pat = true := by
  rw [noOverlapB, List.all_eq_true]
  intro k hk
  have hk' := List.mem_range.mp hk
  have hdrop := List.drop_eq_getElem_cons hk'
  obtain ⟨p0, pt, rfl⟩ : ∃ p0 pt, pat = p0 :: pt := by
    cases pat with
    | nil => simp at hpat
    | cons p0 pt => exact ⟨p0, pt, rfl⟩
  have hp0 : p0 = '\x7b' := by simpa using hpat
  subst hp0
  have hvk : v[k] ≠ '\x7b' := hv _ (List.getElem_mem hk')
  have h1 : (('\x7b' : Char) == v[k]) = false := by
    rw [beq_eq_false_iff_ne]
    exact fun h => hvk h.symm
  have h2 : ((v[k]) == ('\x7b' : Char)) = false := by
    rw [beq_eq_false_iff_ne]
    exact hvk
  rw [hdrop]
  simp [List.isPrefixOf, h1, h2]

/-- Tenant parameters, as character lists, plus the two feature flags. -/
structure Params where
  tenant_name : List Char
  project_name : List Char
  dev_network_range : List Char
  stage_network_range : List Char
  enable_departure : Bool
  enable_avscan : Bool

/-- Python `str(b)` for a boolean. -/
def pyStrBool (b : Bool) : List Char :=
  if b then "True".data else "False".data

/-- Python `str.lower()` on character lists (exact on ASCII text). -/
def toLowerL (s : List Char) : List Char := s.map Char.toLower

/-- Python `str.upper()` on character lists (exact on ASCII text). -/
def toUpperL (s : List Char) : List Char := s.map Char.toUpper

/-- The `placeholders` dict of `_replace_placeholders` (create_tenant.py
lines 196-210) in insertion order: lower-case tokens map to the raw
parameter strings; the upper-case name tokens map to the upper-cased
values and the flag tokens to the lower/upper-cased `str(bool)`
renderings, but the upper-case network-range tokens map to the RAW range
values — lines 206-207 of the source do not call `.upper()` on them. -/
def placeholders (p : Params) : List (List Char × List Char) :=
  [ ("\x7b\x7btenant_name\x7d\x7d".data, p.tenant_name),
    ("\x7b\x7bname\x7d\x7d".data, p.tenant_name),
    ("\x7b\x7bproject_name\x7d\x7d".data, p.project_name),
    ("\x7b\x7bdev_network_range\x7d\x7d".data, p.dev_network_range),
    ("\x7b\x7bstage_network_range\x7d\x7d".data, p.stage_network_range),
    ("\x7b\x7benable_departure\x7d\x7d".data,
      toLowerL (pyStrBool p.enable_departure)),
    ("\x7b\x7benable_avscan\x7d\x7d".data,
      toLowerL (pyStrBool p.enable_avscan)),
    ("\x7b\x7bTENANT_NAME\x7d\x7d".data, toUpperL p.tenant_name),
    ("\x7b\x7bPROJECT_NAME\x7d\x7d".data, toUpperL p.project_name),
    ("\x7b\x7bDEV_NETWORK_RANGE\x7d\x7d".data, p.dev_network_range),
    ("\x7b\x7bSTAGE_NETWORK_RANGE\x7d\x7d".data, p.stage_network_range),
    ("\x7b\x7bENABLE_DEPARTURE\x7d\x7d".data,
      toUpperL (pyStrBool p.enable_departure)),
    ("\x7b\x7bENABLE_AVSCAN\x7d\x7d".data,
      toUpperL (pyStrBool p.enable_avscan)) ]

/-- The thirteen recognized token spellings (the dict's keys). -/
def tokenKeys : List (List Char) :=
  [ "\x7b\x7btenant_name\x7d\x7d".data,
    "\x7b\x7bname\x7d\x7d".data,
    "\x7b\x7bproject_name\x7d\x7d".data,
    "\x7b\x7bdev_network_range\x7d\x7d".data,
    "\x7b\x7bstage_network_range\x7d\x7d".data,
    "\x7b\x7benable_departure\x7d\x7d".data,
    "\x7b\x7benable_avscan\x7d\x7d".data,
    "\x7b\x7bTENANT_NAME\x7d\x7d".data,
    "\x7b\x7bPROJECT_NAME\x7d\x7d".data,
    "\x7b\x7bDEV_NETWORK_RANGE\x7d\x7d".data,
    "\x7b\x7bSTAGE_NETWORK_RANGE\x7d\x7d".data,
    "\x7b\x7bENABLE_DEPARTURE\x7d\x7d".data,
    "\x7b\x7bENABLE_AVSCAN\x7d\x7d".data ]

lemma placeholders_fst (p : Params) :
    (placeholders p).map Prod.fst = tokenKeys := rfl

/-- `TenantCreator._replace_placeholders` (create_tenant.py lines
194-216): one `content.replace(placeholder, value)` pass per dict entry,
in dict order. -/
def replacePlaceholders (p : Params) (content : List Char) : List Char :=
  applyAll (placeholders p) content

/-- First placeholder pair whose token occurs at the current position,
tried in dict order. -/
def findTok (prs : List (List Char × List Char)) (s : List Char) :
    Option (List Char × List Char) :=
  match prs with
  | [] => none
  | pr :: rest =>
    if pr.1 ≠ [] ∧ pr.1.isPrefixOf s = true then some pr else findTok rest s

/-- Modelled from the spec (the claim's reading of the "Template
placeholder set", spec section 3): a single left-to-right pass that
replaces each recognized token occurrence with the corresponding dict
value and leaves all other text, including unmatched tokens, verbatim.
This is the behaviour the claim asserts for EVERY input string; written
with fuel like `pyReplaceFuel` so it is kernel-computable. -/
def specSubstituteFuel (prs : List (List Char × List Char)) :
    Nat → List Char → List Char
  | 0, _ => []
  | _ + 1, [] => []
  | f + 1, c :: s' =>
    match findTok prs (c :: s') with
    | some pr =>
      pr.2 ++ specSubstituteFuel prs f (List.drop (pr.1.length - 1) s')
    | none => c :: specSubstituteFuel prs f s'

/-- The spec-described substitution of a whole string. -/
def specSubstitute (prs : List (List Char × List Char)) (s : List Char) :
    List Char :=
  specSubstituteFuel prs s.length s

end CreateTenant

namespace CleanupOnboard

/-- Outcomes of the external calls made by one cleanup run
(cleanup_onboard.py).  Each field is the result of one black-box
interaction with the filesystem, git, or GitHub:
`branch_found` — `check_branch_exists()` (lines 78-103);
`checkout_ok` — `checkout_branch()` (lines 105-132);
`file_exists` — `self.onboarding_file.exists()` (line 137);
`delete_ok` — `unlink` plus `index.remove` raise no exception (lines 139-145);
`repo_dirty` — `is_dirty() or untracked_files` (line 158);
`commit_ok` — `index.commit` raises no exception (line 172);
`push_ok` — `origin.push` raises no exception (lines 185-195);
`github_client` — a GitHub client was constructed in `__init__`;
`pr_found` — an open PR with the branch as head exists (line 214);
`comment_ok` — `create_issue_comment` raises no exception (line 242). -/
structure RunEnv where
  branch_found : Bool
  checkout_ok : Bool
  file_exists : Bool
  delete_ok : Bool
  repo_dirty : Bool
  commit_ok : Bool
  push_ok : Bool
  github_client : Bool
  pr_found : Bool
  comment_ok : Bool

/-- Externally observable repository-mutating (or PR-mutating) effects a
run can perform, in order. -/
inductive Action where
  | deleteFile : Action
  | stageDeletion : Action
  | commit : Action
  | push : Action
  | prComment : Action
deriving DecidableEq

/-- `delete_onboarding_file` (lines 134-152): returns `True` and stages the
deletion when the file exists and no exception occurs; returns `False`
when the file is absent (warning only) or an exception is caught. -/
def delete_onboarding_file (env : RunEnv) : Bool × List Action :=
  if env.file_exists then
    if env.delete_ok then (true, [.deleteFile, .stageDeletion])
    else (false, [.deleteFile])
  else (false, [])

/-- `commit_changes` (lines 154-179): `False` when nothing is dirty or the
commit raises; `True` (with a commit performed) otherwise. -/
def commit_changes (env : RunEnv) : Bool × List Action :=
  if !env.repo_dirty then (false, [])
  else if env.commit_ok then (true, [.commit])
  else (false, [])

/-- `push_changes` (lines 181-202): `True` with a push performed unless the
push raises. -/
def push_changes (env : RunEnv) : Bool × List Action :=
  if env.push_ok then (true, [.push]) else (false, [])

/-- `add_cleanup_comment` (lines 204-248): skipped without a GitHub client;
`False` when no open PR matches or posting raises; `True` with a comment
posted otherwise.  No branch of this method aborts the run. -/
def add_cleanup_comment (env : RunEnv) : Bool × List Action :=
  if !env.github_client then (false, [])
  else if !env.pr_found then (false, [])
  else if env.comment_ok then (true, [.prComment])
  else (false, [])

/-- `cleanup` (lines 250-286): the complete process.  Returns the success
flag together with the trace of performed effects.  Commit and push run
only when the file was actually deleted; the PR comment step runs
regardless and its result is ignored. -/
def cleanup (env : RunEnv) : Bool × List Action :=
  if !env.branch_found then (false, [])
  else if !env.checkout_ok then (false, [])
  else
    let fd := delete_onboarding_file env
    if fd.1 then
      let c := commit_changes env
      if !c.1 then (false, fd.2 ++ c.2)
      else
        let p := push_changes env
        if !p.1 then (false, fd.2 ++ c.2 ++ p.2)
        else
          let cm := add_cleanup_comment env
          (true, fd.2 ++ c.2 ++ p.2 ++ cm.2)
    else
      let cm := add_cleanup_comment env
      (true, fd.2 ++ cm.2)

/-- `main` (lines 288-337): exit code 0 when `cleanup` returns `True`,
exit code 1 otherwise. -/
def mainExitCode (env : RunEnv) : Nat :=
  if (cleanup env).1 then 0 else 1

end CleanupOnboard

/-- Claim C2: for every category stack list and every enabled-key list, the
per-category result `getEnabledKeysFromStack stack enabledKeys` equals
exactly the elements of the stack that are members of the enabled-key
list, in the stack's declared order — i.e. `stack.filter (· ∈ enabled)`. -/
theorem getEnabledKeysFromStack_eq_filter
    (stack enabledKeyList : List String) :
    ResolveLayers.getEnabledKeysFromStack stack enabledKeyList
      = stack.filter (fun k => enabledKeyList.contains k) := by
  unfold ResolveLayers.getEnabledKeysFromStack
  simpa using ResolveLayers.getEnabledKeysFromStack_aux stack enabledKeyList []

/-- Claim C1: for every locals document, when the Layer Resolver examines a
top-level key of any entry of `locals`, the object whose `enabled` flag is
tested and whose `path` is recorded is always taken from the first element
of `locals`.  Hence the result (and the whole script output) is invariant
under replacing the values of every non-first entry, as long as each
entry's key list is unchanged. -/
theorem resolveLayers_path_from_first_element
    (d0 : ResolveLayers.Entry) (rest rest' : List ResolveLayers.Entry)
    (sts : ResolveLayers.Stacks)
    (h : rest.map (fun e => e.map Prod.fst)
        = rest'.map (fun e => e.map Prod.fst)) :
    ResolveLayers.resolveEnabled (d0 :: rest)
        = ResolveLayers.resolveEnabled (d0 :: rest')
    ∧ ResolveLayers.resolveLayersRun (d0 :: rest) sts
        = ResolveLayers.resolveLayersRun (d0 :: rest') sts := by
  have hres : ResolveLayers.resolveEnabled (d0 :: rest)
      = ResolveLayers.resolveEnabled (d0 :: rest') := by
    unfold ResolveLayers.resolveEnabled
    apply ResolveLayers.resolveLoop_keys
    simp only [List.map_cons]
    rw [h]
  refine ⟨hres, ?_⟩
  unfold ResolveLayers.resolveLayersRun
  rw [hres]

/-- Concrete instance of claim C1: the second `locals` entry binds `net`
to two different values in the two documents, yet the resolver's outcome
is identical because only the first entry's object is consulted. -/
theorem resolveLayers_path_from_first_element_witness :
    ([[(("net" : String), ResolveLayers.Json.num 1)]].map
        (fun e => e.map Prod.fst)
      = [[(("net" : String), ResolveLayers.Json.null)]].map
        (fun e => e.map Prod.fst))
    ∧ (ResolveLayers.resolveEnabled
          ([("net", ResolveLayers.Json.obj
              [("enabled", ResolveLayers.Json.bool true),
               ("path", ResolveLayers.Json.str "net/")])]
            :: [[("net", ResolveLayers.Json.num 1)]])
        = ResolveLayers.resolveEnabled
          ([("net", ResolveLayers.Json.obj
              [("enabled", ResolveLayers.Json.bool true),
               ("path", ResolveLayers.Json.str "net/")])]
            :: [[("net", ResolveLayers.Json.null)]])
      ∧ ResolveLayers.resolveLayersRun
          ([("net", ResolveLayers.Json.obj
              [("enabled", ResolveLayers.Json.bool true),
               ("path", ResolveLayers.Json.str "net/")])]
            :: [[("net", ResolveLayers.Json.num 1)]])
          ⟨["net"], [], [], [], [], [], []⟩
        = ResolveLayers.resolveLayersRun
          ([("net", ResolveLayers.Json.obj
              [("enabled", ResolveLayers.Json.bool true),
               ("path", ResolveLayers.Json.str "net/")])]
            :: [[("net", ResolveLayers.Json.null)]])
          ⟨["net"], [], [], [], [], [], []⟩) :=
  ⟨rfl, resolveLayers_path_from_first_element _ _ _ _ rfl⟩

/-- Claim C8: two runs of the Layer Resolver on the same parsed file
contents and the same seven environment-supplied stacks produce identical
standard output — the run is a pure function of those two inputs. -/
theorem resolveLayers_rerun_identical
    (d d' : List ResolveLayers.Entry) (s s' : ResolveLayers.Stacks)
    (hd : d = d') (hs : s = s') :
    ResolveLayers.resolveLayersRun d s
      = ResolveLayers.resolveLayersRun d' s' := by
  rw [hd, hs]

/-- Concrete instance of claim C8: re-running on one fixed document and
stack environment gives the same output lines. -/
theorem resolveLayers_rerun_identical_witness :
    (([[("net", ResolveLayers.Json.obj
          [("enabled", ResolveLayers.Json.bool true),
           ("path", ResolveLayers.Json.str "net/")])]]
        : List ResolveLayers.Entry)
      = [[("net", ResolveLayers.Json.obj
          [("enabled", ResolveLayers.Json.bool true),
           ("path", ResolveLayers.Json.str "net/")])]])
    ∧ ResolveLayers.resolveLayersRun
        [[("net", ResolveLayers.Json.obj
            [("enabled", ResolveLayers.Json.bool true),
             ("path", ResolveLayers.Json.str "net/")])]]
        ⟨["net", "other"], ["datadog"], [], [], [], [], []⟩
      = ResolveLayers.resolveLayersRun
        [[("net", ResolveLayers.Json.obj
            [("enabled", ResolveLayers.Json.bool true),
             ("path", ResolveLayers.Json.str "net/")])]]
        ⟨["net", "other"], ["datadog"], [], [], [], [], []⟩ :=
  ⟨rfl, resolveLayers_rerun_identical _ _ _ _ rfl rfl⟩

/-- Claim C9: whenever some entry of `locals` other than the first contains
a top-level key absent from the first entry, the lookup
`localData[0][key]` raises `KeyError` and the script terminates without
printing any output line (the run result is an error, not a list of
lines). -/
theorem resolveLayers_missing_key_aborts
    (d0 : ResolveLayers.Entry) (rest : List ResolveLayers.Entry)
    (sts : ResolveLayers.Stacks)
    (h : ∃ e ∈ rest, ∃ kv ∈ e, ResolveLayers.lookupJ d0 kv.1 = none) :
    ∃ err, ResolveLayers.resolveLayersRun (d0 :: rest) sts
        = Except.error err := by
  have hkey : ∃ e ∈ (d0 :: rest), ∃ kv ∈ e,
      ResolveLayers.lookupJ d0 kv.1 = none := by
    obtain ⟨e, he, hk⟩ := h
    exact ⟨e, List.mem_cons_of_mem d0 he, hk⟩
  obtain ⟨err, herr⟩ :=
    ResolveLayers.resolveLoop_isError d0 (d0 :: rest) ([], []) hkey
  have hres : ResolveLayers.resolveEnabled (d0 :: rest) = .error err := herr
  refine ⟨err, ?_⟩
  unfold ResolveLayers.resolveLayersRun
  rw [hres]
  rfl

/-- Concrete instance of claim C9: the second entry's key `b` is absent
from the first entry, so the run aborts with an error. -/
theorem resolveLayers_missing_key_aborts_witness :
    (∃ e ∈ ([[("b", ResolveLayers.Json.null)]]
        : List ResolveLayers.Entry), ∃ kv ∈ e,
      ResolveLayers.lookupJ
        [("a", ResolveLayers.Json.obj
            [("enabled", ResolveLayers.Json.bool true)])] kv.1 = none)
    ∧ ∃ err, ResolveLayers.resolveLayersRun
        ([("a", ResolveLayers.Json.obj
            [("enabled", ResolveLayers.Json.bool true)])]
          :: [[("b", ResolveLayers.Json.null)]])
        ⟨[], [], [], [], [], [], []⟩ = Except.error err :=
  ⟨⟨[("b", ResolveLayers.Json.null)], by simp,
    ("b", ResolveLayers.Json.null), by simp, rfl⟩,
   resolveLayers_missing_key_aborts _ _ _
    ⟨[("b", ResolveLayers.Json.null)], by simp,
     ("b", ResolveLayers.Json.null), by simp, rfl⟩⟩

/-- Claim C6: when branch resolution and checkout succeed but the fixed
onboarding workflow file does not exist, the cleanup run performs no
commit and no push, yet still succeeds (exit code 0). -/
theorem cleanup_missing_file_success
    (b c f d r k p g q m : Bool)
    (hb : b = true) (hc : c = true) (hf : f = false) :
    (CleanupOnboard.cleanup ⟨b, c, f, d, r, k, p, g, q, m⟩).1 = true
    ∧ CleanupOnboard.Action.commit
        ∉ (CleanupOnboard.cleanup ⟨b, c, f, d, r, k, p, g, q, m⟩).2
    ∧ CleanupOnboard.Action.push
        ∉ (CleanupOnboard.cleanup ⟨b, c, f, d, r, k, p, g, q, m⟩).2
    ∧ CleanupOnboard.mainExitCode ⟨b, c, f, d, r, k, p, g, q, m⟩ = 0 := by
  subst hb hc hf
  cases d <;> cases r <;> cases k <;> cases p <;> cases g <;> cases q
    <;> cases m <;> decide

/-- Concrete instance of claim C6: branch found and checked out, file
absent, GitHub client present with an open PR — the run succeeds with an
empty commit/push trace. -/
theorem cleanup_missing_file_success_witness :
    ((true : Bool) = true ∧ (true : Bool) = true ∧ (false : Bool) = false)
    ∧ ((CleanupOnboard.cleanup
          ⟨true, true, false, false, false, false, false, true, true, true⟩).1
            = true
      ∧ CleanupOnboard.Action.commit
          ∉ (CleanupOnboard.cleanup
            ⟨true, true, false, false, false, false, false, true, true, true⟩).2
      ∧ CleanupOnboard.Action.push
          ∉ (CleanupOnboard.cleanup
            ⟨true, true, false, false, false, false, false, true, true, true⟩).2
      ∧ CleanupOnboard.mainExitCode
          ⟨true, true, false, false, false, false, false, true, true, true⟩
            = 0) :=
  ⟨⟨rfl, rfl, rfl⟩,
   cleanup_missing_file_success true true false false false false false
    true true true rfl rfl rfl⟩

/-- Claim C7: once a cleanup run reaches the PR-commenting step (branch
found, checkout succeeded, and — when the file was deleted — commit and
push succeeded), the absence of a GitHub client, the absence of an open
PR, and any error while posting the comment never change the outcome: the
run reports success for every combination of those three conditions. -/
theorem cleanup_comment_step_never_fails
    (b c f d r k p : Bool)
    (hb : b = true) (hc : c = true)
    (hcp : f = true → d = true → (r = true ∧ k = true) ∧ p = true) :
    ∀ gc pf co : Bool,
      (CleanupOnboard.cleanup ⟨b, c, f, d, r, k, p, gc, pf, co⟩).1 = true := by
  subst hb hc
  intro gc pf co
  cases f with
  | false =>
    cases d <;> cases r <;> cases k <;> cases p <;> cases gc <;> cases pf
      <;> cases co <;> decide
  | true =>
    cases d with
    | false =>
      cases r <;> cases k <;> cases p <;> cases gc <;> cases pf
        <;> cases co <;> decide
    | true =>
      obtain ⟨⟨hr, hk⟩, hp⟩ := hcp rfl rfl
      subst hr hk hp
      cases gc <;> cases pf <;> cases co <;> decide

/-- Concrete instance of claim C7: a run that deleted the file and
committed and pushed successfully still succeeds with no GitHub client,
no open PR, and a failing comment post. -/
theorem cleanup_comment_step_never_fails_witness :
    ((true : Bool) = true ∧ (true : Bool) = true
      ∧ ((true : Bool) = true → (true : Bool) = true →
          ((true : Bool) = true ∧ (true : Bool) = true)
            ∧ (true : Bool) = true))
    ∧ ∀ gc pf co : Bool,
      (CleanupOnboard.cleanup
        ⟨true, true, true, true, true, true, true, gc, pf, co⟩).1 = true :=
  ⟨⟨rfl, rfl, fun _ _ => ⟨⟨rfl, rfl⟩, rfl⟩⟩,
   cleanup_comment_step_never_fails true true true true true true true
    rfl rfl (fun _ _ => ⟨⟨rfl, rfl⟩, rfl⟩)⟩

/-- Claim C4: in every environment lacking at least one of the five
required tenant parameters (TENANT_NAME, PROJECT_NAME, DEV_NETWORK_RANGE,
STAGE_NETWORK_RANGE, GITHUB_TOKEN), `TenantCreator.__init__` exits with
code 1.  The validation block runs before any repository mutation: up to
that point the constructor has only read environment variables. -/
theorem createTenant_missing_required_env_exits
    (env : String → Option String)
    (h : env "TENANT_NAME" = none ∨ env "PROJECT_NAME" = none
      ∨ env "DEV_NETWORK_RANGE" = none ∨ env "STAGE_NETWORK_RANGE" = none
      ∨ env "GITHUB_TOKEN" = none) :
    CreateTenant.tenantCreatorInit env = .exited 1 := by
  unfold CreateTenant.tenantCreatorInit
  rcases h with h | h | h | h | h <;> rw [h] <;>
    simp [CreateTenant.truthyEnv]

/-- Concrete instance of claim C4: the empty environment exits with
code 1. -/
theorem createTenant_missing_required_env_exits_witness :
    ((fun (_ : String) => (none : Option String)) "TENANT_NAME" = none
      ∨ (fun (_ : String) => (none : Option String)) "PROJECT_NAME" = none
      ∨ (fun (_ : String) => (none : Option String)) "DEV_NETWORK_RANGE" = none
      ∨ (fun (_ : String) => (none : Option String)) "STAGE_NETWORK_RANGE" = none
      ∨ (fun (_ : String) => (none : Option String)) "GITHUB_TOKEN" = none)
    ∧ CreateTenant.tenantCreatorInit (fun _ => none) = .exited 1 :=
  ⟨Or.inl rfl,
   createTenant_missing_required_env_exits (fun _ => none) (Or.inl rfl)⟩

/-- Claim C10: the validation in `TenantCreator.__init__` does not cover
GITHUB_REPOSITORY.  With the five required variables set (to non-empty,
hence truthy, strings) and GITHUB_REPOSITORY unset, initialization passes
the check and proceeds to construct the repository client with a missing
repository name (`st.github_repository = none` is the value handed to
`gh.get_repo`). -/
theorem createTenant_github_repository_unvalidated
    (env : String → Option String) (t p d s g : String)
    (ht : env "TENANT_NAME" = some t) (ht' : t ≠ "")
    (hp : env "PROJECT_NAME" = some p) (hp' : p ≠ "")
    (hd : env "DEV_NETWORK_RANGE" = some d) (hd' : d ≠ "")
    (hs : env "STAGE_NETWORK_RANGE" = some s) (hs' : s ≠ "")
    (hg : env "GITHUB_TOKEN" = some g) (hg' : g ≠ "")
    (hr : env "GITHUB_REPOSITORY" = none) :
    ∃ st, CreateTenant.tenantCreatorInit env = .ok st
      ∧ st.github_repository = none := by
  unfold CreateTenant.tenantCreatorInit
  rw [ht, hp, hd, hs, hg, hr]
  have hcond : (!(CreateTenant.truthyEnv (some t)
      && CreateTenant.truthyEnv (some p)
      && CreateTenant.truthyEnv (some d)
      && CreateTenant.truthyEnv (some s)
      && CreateTenant.truthyEnv (some g))) = false := by
    simp [CreateTenant.truthyEnv, ht', hp', hd', hs', hg']
  rw [if_neg (by rw [hcond]; exact Bool.false_ne_true)]
  exact ⟨_, rfl, rfl⟩

/-- Concrete instance of claim C10: all five required variables set,
GITHUB_REPOSITORY unset — initialization succeeds and carries `none` as
the repository name. -/
theorem createTenant_github_repository_unvalidated_witness :
    ∃ st, CreateTenant.tenantCreatorInit
        (fun v =>
          if v = "TENANT_NAME" then some "acme"
          else if v = "PROJECT_NAME" then some "proj"
          else if v = "DEV_NETWORK_RANGE" then some "10.0.0.0/16"
          else if v = "STAGE_NETWORK_RANGE" then some "10.1.0.0/16"
          else if v = "GITHUB_TOKEN" then some "tok"
          else none) = .ok st
      ∧ st.github_repository = none :=
  createTenant_github_repository_unvalidated _
    "acme" "proj" "10.0.0.0/16" "10.1.0.0/16" "tok"
    rfl (by decide) rfl (by decide) rfl (by decide) rfl (by decide)
    rfl (by decide) rfl

/-- Claim C5: with workflow templates present, `SKIP_WORKFLOWS` off and
the primary write to `.github/workflows/` failing, the provisioner writes
the files under the tenant's `workflows/` subdirectory and records the
`"fallback"` outcome; if that write also fails it records the skipped
outcome; the method never raises (every environment yields `.ok`), and
the commit-message and PR-body fragments selected for the fallback
outcome are the fallback texts, not the copied texts. -/
theorem createTenant_workflow_fallback
    (sk ex pw fw : Bool) (tenant_name : String)
    (hex : ex = true) (hskip : sk = false) (hprim : pw = false) :
    (fw = true →
      CreateTenant.copyTemplateWorkflows ⟨sk, ex, pw, fw⟩
        = .ok (.fallback, some .tenantWorkflowsSubdir))
    ∧ (fw = false →
      CreateTenant.copyTemplateWorkflows ⟨sk, ex, pw, fw⟩
        = .ok (.skippedAll, none))
    ∧ (∀ sk' ex' pw' fw' : Bool, ∃ r,
        CreateTenant.copyTemplateWorkflows ⟨sk', ex', pw', fw'⟩ = .ok r)
    ∧ CreateTenant.getWorkflowStatusMessage .fallback
        = "Created workflows in tenant/workflows/ (manual copy required)"
    ∧ CreateTenant.getWorkflowStatusMessage .fallback
        ≠ CreateTenant.getWorkflowStatusMessage .copiedAll
    ∧ CreateTenant.getWorkflowPrMessage tenant_name .fallback
        ≠ CreateTenant.getWorkflowPrMessage tenant_name .copiedAll := by
  subst hex hskip hprim
  refine ⟨?_, ?_, ?_, rfl, by decide, CreateTenant.prMessage_fallback_ne_copied tenant_name⟩
  · intro hfw; subst hfw; rfl
  · intro hfw; subst hfw; rfl
  · intro sk' ex' pw' fw'
    cases sk' <;> cases ex' <;> cases pw' <;> cases fw' <;> exact ⟨_, rfl⟩

/-- Concrete instance of claim C5: templates exist, skip off, primary
write fails, fallback write succeeds. -/
theorem createTenant_workflow_fallback_witness :
    ((true : Bool) = true ∧ (false : Bool) = false ∧ (false : Bool) = false)
    ∧ (((true : Bool) = true →
        CreateTenant.copyTemplateWorkflows ⟨false, true, false, true⟩
          = .ok (.fallback, some .tenantWorkflowsSubdir))
      ∧ ((true : Bool) = false →
        CreateTenant.copyTemplateWorkflows ⟨false, true, false, true⟩
          = .ok (.skippedAll, none))
      ∧ (∀ sk' ex' pw' fw' : Bool, ∃ r,
          CreateTenant.copyTemplateWorkflows ⟨sk', ex', pw', fw'⟩ = .ok r)
      ∧ CreateTenant.getWorkflowStatusMessage .fallback
          = "Created workflows in tenant/workflows/ (manual copy required)"
      ∧ CreateTenant.getWorkflowStatusMessage .fallback
          ≠ CreateTenant.getWorkflowStatusMessage .copiedAll
      ∧ CreateTenant.getWorkflowPrMessage "acme" .fallback
          ≠ CreateTenant.getWorkflowPrMessage "acme" .copiedAll) :=
  ⟨⟨rfl, rfl, rfl⟩,
   createTenant_workflow_fallback false true false true "acme" rfl rfl rfl⟩

/-- Claim C3 (amended): for every content string that splits into inert
segments and recognized-token occurrences — inert segments being text in
which no recognized token occurrence starts, even one running past the
segment into the following text — and for parameter values free of left
braces, the literal placeholder pass replaces each recognized token
occurrence with the corresponding dict value and leaves every inert
segment (including unmatched tokens such as `\x7b\x7bfoo\x7d\x7d`)
verbatim; the second conjunct records, definitionally, which value each
token receives: lower-case tokens the raw parameter strings, the
upper-case name and flag tokens the upper-cased values, and the
upper-case network-range tokens the RAW range values (create_tenant.py
lines 206-207 do not upper-case them, contrary to the original claim). -/
theorem createTenant_replace_placeholders_chunks
    (p : CreateTenant.Params) (cs : List CreateTenant.Chunk)
    (hv : ∀ pr ∈ CreateTenant.placeholders p, ∀ c ∈ pr.2, c ≠ '\x7b')
    (hlit : ∀ s, CreateTenant.Chunk.lit s ∈ cs →
      ∀ pr ∈ CreateTenant.placeholders p,
        CreateTenant.noOverlapB s pr.1 = true) :
    CreateTenant.replacePlaceholders p
        (CreateTenant.joinL
          (cs.map (CreateTenant.renderChunk (CreateTenant.placeholders p))))
      = CreateTenant.joinL
          (cs.map (CreateTenant.outChunk (CreateTenant.placeholders p)))
    ∧ (CreateTenant.placeholders p).map Prod.snd
      = [p.tenant_name, p.tenant_name, p.project_name, p.dev_network_range,
         p.stage_network_range,
         CreateTenant.toLowerL (CreateTenant.pyStrBool p.enable_departure),
         CreateTenant.toLowerL (CreateTenant.pyStrBool p.enable_avscan),
         CreateTenant.toUpperL p.tenant_name,
         CreateTenant.toUpperL p.project_name,
         p.dev_network_range, p.stage_network_range,
         CreateTenant.toUpperL (CreateTenant.pyStrBool p.enable_departure),
         CreateTenant.toUpperL (CreateTenant.pyStrBool p.enable_avscan)] := by
  refine ⟨?_, rfl⟩
  apply CreateTenant.applyAll_chunks
  · intro pr hpr
    have hmem : pr.1 ∈ CreateTenant.tokenKeys := by
      rw [← CreateTenant.placeholders_fst p]
      exact List.mem_map_of_mem Prod.fst hpr
    intro hnil
    rw [hnil] at hmem
    revert hmem
    decide
  · have hkeys : List.Pairwise
        (fun a b => CreateTenant.noOverlapB b a = true) CreateTenant.tokenKeys := by
      decide
    rw [← CreateTenant.placeholders_fst p] at hkeys
    exact List.pairwise_map.mp hkeys
  · apply CreateTenant.pairwise_of_mem
    intro x hx y hy
    apply CreateTenant.noOverlapB_of_no_brace
    · exact hv x hx
    · have hmem : y.1 ∈ CreateTenant.tokenKeys := by
        rw [← CreateTenant.placeholders_fst p]
        exact List.mem_map_of_mem Prod.fst hy
      have hall : ∀ t ∈ CreateTenant.tokenKeys, t.head? = some '\x7b' := by
        decide
      exact hall y.1 hmem
  · exact hlit

/-- Concrete instance of claim C3 (amended): the content
`name: \x7b\x7btenant_name\x7d\x7d up: \x7b\x7bTENANT_NAME\x7d\x7d keep \x7b\x7bfoo\x7d\x7d!`
renders with the lower token replaced by `acme`, the upper token by
`ACME`, and the unmatched token `\x7b\x7bfoo\x7d\x7d` left verbatim. -/
theorem createTenant_replace_placeholders_chunks_witness :
    ((∀ pr ∈ CreateTenant.placeholders
        ⟨"acme".data, "proj".data, "10.0.0.0/16".data, "10.1.0.0/16".data,
          true, false⟩, ∀ c ∈ pr.2, c ≠ '\x7b')
      ∧ (∀ s, CreateTenant.Chunk.lit s ∈
          [CreateTenant.Chunk.lit "name: ".data,
           CreateTenant.Chunk.tok 0,
           CreateTenant.Chunk.lit " up: ".data,
           CreateTenant.Chunk.tok 7,
           CreateTenant.Chunk.lit " keep \x7b\x7bfoo\x7d\x7d!".data] →
          ∀ pr ∈ CreateTenant.placeholders
            ⟨"acme".data, "proj".data, "10.0.0.0/16".data, "10.1.0.0/16".data,
              true, false⟩,
            CreateTenant.noOverlapB s pr.1 = true))
    ∧ (CreateTenant.replacePlaceholders
        ⟨"acme".data, "proj".data, "10.0.0.0/16".data, "10.1.0.0/16".data,
          true, false⟩
        (CreateTenant.joinL
          ([CreateTenant.Chunk.lit "name: ".data,
            CreateTenant.Chunk.tok 0,
            CreateTenant.Chunk.lit " up: ".data,
            CreateTenant.Chunk.tok 7,
            CreateTenant.Chunk.lit " keep \x7b\x7bfoo\x7d\x7d!".data].map
            (CreateTenant.renderChunk (CreateTenant.placeholders
              ⟨"acme".data, "proj".data, "10.0.0.0/16".data,
                "10.1.0.0/16".data, true, false⟩))))
      = CreateTenant.joinL
          ([CreateTenant.Chunk.lit "name: ".data,
            CreateTenant.Chunk.tok 0,
            CreateTenant.Chunk.lit " up: ".data,
            CreateTenant.Chunk.tok 7,
            CreateTenant.Chunk.lit " keep \x7b\x7bfoo\x7d\x7d!".data].map
            (CreateTenant.outChunk (CreateTenant.placeholders
              ⟨"acme".data, "proj".data, "10.0.0.0/16".data,
                "10.1.0.0/16".data, true, false⟩)))
      ∧ (CreateTenant.placeholders
          ⟨"acme".data, "proj".data, "10.0.0.0/16".data, "10.1.0.0/16".data,
            true, false⟩).map Prod.snd
        = ["acme".data, "acme".data, "proj".data, "10.0.0.0/16".data,
           "10.1.0.0/16".data,
           CreateTenant.toLowerL (CreateTenant.pyStrBool true),
           CreateTenant.toLowerL (CreateTenant.pyStrBool false),
           CreateTenant.toUpperL "acme".data,
           CreateTenant.toUpperL "proj".data,
           "10.0.0.0/16".data, "10.1.0.0/16".data,
           CreateTenant.toUpperL (CreateTenant.pyStrBool true),
           CreateTenant.toUpperL (CreateTenant.pyStrBool false)]) :=
  ⟨⟨by decide, by
      intro s hs
      simp only [List.mem_cons, List.not_mem_nil, or_false] at hs
      rcases hs with h | h | h | h | h
      · injection h with h'; subst h'; decide
      · exact CreateTenant.Chunk.noConfusion h
      · injection h with h'; subst h'; decide
      · exact CreateTenant.Chunk.noConfusion h
      · injection h with h'; subst h'; decide⟩,
   createTenant_replace_placeholders_chunks
    ⟨"acme".data, "proj".data, "10.0.0.0/16".data, "10.1.0.0/16".data,
      true, false⟩
    [CreateTenant.Chunk.lit "name: ".data,
     CreateTenant.Chunk.tok 0,
     CreateTenant.Chunk.lit " up: ".data,
     CreateTenant.Chunk.tok 7,
     CreateTenant.Chunk.lit " keep \x7b\x7bfoo\x7d\x7d!".data]
    (by decide) (by
      intro s hs
      simp only [List.mem_cons, List.not_mem_nil, or_false] at hs
      rcases hs with h | h | h | h | h
      · injection h with h'; subst h'; decide
      · exact CreateTenant.Chunk.noConfusion h
      · injection h with h'; subst h'; decide
      · exact CreateTenant.Chunk.noConfusion h
      · injection h with h'; subst h'; decide)⟩

/-- Claim C3, counterexample to the unamended claim, refuting both of its
false parts.  First part ("all other text verbatim"): with tenant name
`_` and project name `proj`, the input
`\x7b\x7bPROJECT\x7b\x7bname\x7d\x7dNAME\x7d\x7d` contains exactly one
recognized token occurrence (`\x7b\x7bname\x7d\x7d`); the behaviour the
claim describes for every input string (`specSubstitute`) replaces it
with `_` and leaves the surrounding text verbatim, giving
`\x7b\x7bPROJECT_NAME\x7d\x7d`, but the code's sequential passes turn
that freshly created spelling into `PROJ`.  Second part ("each
recognized upper-case token replaced with the upper-cased value"): with
development network range `abc` and stage network range `xyz`, the
inputs `\x7b\x7bDEV_NETWORK_RANGE\x7d\x7d` and
`\x7b\x7bSTAGE_NETWORK_RANGE\x7d\x7d` are replaced with the raw values
`abc` and `xyz`, not the upper-cased `ABC` and `XYZ` — create_tenant.py
lines 206-207 omit `.upper()` for exactly these two tokens. -/
theorem createTenant_replace_placeholders_counterexample :
    (CreateTenant.replacePlaceholders
        ⟨"_".data, "proj".data, "10.0.0.0/16".data, "10.1.0.0/16".data,
          false, false⟩
        "\x7b\x7bPROJECT\x7b\x7bname\x7d\x7dNAME\x7d\x7d".data
      = "PROJ".data
    ∧ CreateTenant.specSubstitute
        (CreateTenant.placeholders
          ⟨"_".data, "proj".data, "10.0.0.0/16".data, "10.1.0.0/16".data,
            false, false⟩)
        "\x7b\x7bPROJECT\x7b\x7bname\x7d\x7dNAME\x7d\x7d".data
      = "\x7b\x7bPROJECT_NAME\x7d\x7d".data
    ∧ CreateTenant.replacePlaceholders
        ⟨"_".data, "proj".data, "10.0.0.0/16".data, "10.1.0.0/16".data,
          false, false⟩
        "\x7b\x7bPROJECT\x7b\x7bname\x7d\x7dNAME\x7d\x7d".data
      ≠ CreateTenant.specSubstitute
        (CreateTenant.placeholders
          ⟨"_".data, "proj".data, "10.0.0.0/16".data, "10.1.0.0/16".data,
            false, false⟩)
        "\x7b\x7bPROJECT\x7b\x7bname\x7d\x7dNAME\x7d\x7d".data)
    ∧ (CreateTenant.replacePlaceholders
        ⟨"_".data, "proj".data, "abc".data, "xyz".data, false, false⟩
        "\x7b\x7bDEV_NETWORK_RANGE\x7d\x7d".data
      = "abc".data
    ∧ CreateTenant.replacePlaceholders
        ⟨"_".data, "proj".data, "abc".data, "xyz".data, false, false⟩
        "\x7b\x7bDEV_NETWORK_RANGE\x7d\x7d".data
      ≠ CreateTenant.toUpperL "abc".data
    ∧ CreateTenant.replacePlaceholders
        ⟨"_".data, "proj".data, "abc".data, "xyz".data, false, false⟩
        "\x7b\x7bSTAGE_NETWORK_RANGE\x7d\x7d".data
      = "xyz".data
    ∧ CreateTenant.replacePlaceholders
        ⟨"_".data, "proj".data, "abc".data, "xyz".data, false, false⟩
        "\x7b\x7bSTAGE_NETWORK_RANGE\x7d\x7d".data
      ≠ CreateTenant.toUpperL "xyz".data) :=
  ⟨⟨by decide, by decide, by decide⟩,
   by decide, by decide, by decide, by decide⟩
